import Mathlib

/-!
Verification of the peer-to-peer session and media-signaling layer of the
x-tools repository (the WebRTC chat / file-transfer / call component).

The component exists in two variants in the source: a base chat/file variant
and a call-enabled variant that adds the media call state machine. Both are
React components driven by the browser event loop; we embed them as explicit
state-transition functions over a record of the component's state hooks and
refs, with the asynchronous callbacks (connection events, media events,
`getUserMedia` resolution) modelled as events of a step function.

String-typed values produced by JavaScript numeric formatting
(`Date.now().toString()`, `Math.random()` coerced to a string,
`Math.random().toString(36)`) are embedded as character lists produced from
the digit sequences the engine prints.
-/

namespace XTools

/-- Sender role of a log entry (source field `Message.sender`: `me`, `remote`, `system`). -/
inductive Sender
  | me
  | remote
  | system
  deriving DecidableEq, Repr

/-- Kind of a log entry (source field `Message.type`: `text`, `file`, `system`). -/
inductive MsgType
  | text
  | file
  | system
  deriving DecidableEq, Repr

/-- Data-channel status (source state `status`). -/
inductive ConnStatus
  | disconnected
  | connecting
  | connected
  deriving DecidableEq, Repr

/-- Call lifecycle state (source type `CallState`). -/
inductive CallState
  | idle
  | calling
  | incoming
  | active
  deriving DecidableEq, Repr

/-- Call mode (source type `CallMode`). -/
inductive CallMode
  | audio
  | video
  deriving DecidableEq, Repr

/-- Kind of a local media track. -/
inductive TrackKind
  | audio
  | video
  deriving DecidableEq, Repr

/-- A local media device track (`MediaStreamTrack`): its kind, the `enabled`
flag toggled by mute/camera controls, and whether `stop()` has been called. -/
structure Track where
  kind : TrackKind
  enabled : Bool
  stopped : Bool
  deriving DecidableEq, Repr

/-- A `MediaConnection` held in `mediaCallRef`: the remote peer, the call mode
taken from `call.metadata?.mode ?? 'audio'`, and whether `setupMediaCall` has
registered the `stream` / `close` / `error` handlers on it (the source attaches
them only from `startCall` and `answerCall`, never on mere receipt). -/
structure MediaCall where
  peer : String
  mode : CallMode
  wired : Bool
  deriving DecidableEq, Repr

/-- A log entry (source interface `Message`). The id is the concatenated string
the source builds; byte payloads are lists of bytes. -/
structure Message where
  id : List Char
  sender : Sender
  type : MsgType
  content : String
  timestamp : Nat
  fileName : Option String := none
  fileSize : Option Nat := none
  fileData : Option (List Nat) := none
  deriving DecidableEq, Repr

/-- An application frame on the data channel (the untyped objects passed to
`conn.send`), as a tagged union: `text`, `file-start`, `file`, anything else. -/
inductive Frame
  | text (content : String)
  | fileStart (fileName : String) (fileSize : Nat)
  | file (fileData : List Nat) (fileName : String) (fileSize : Nat)
  | other (tag : String)
  deriving DecidableEq, Repr

/-- A browser `File` together with the bytes `FileReader.readAsArrayBuffer`
produces for it (`file.name`, `file.size`, and the array-buffer contents). -/
structure FileBlob where
  name : String
  size : Nat
  data : List Nat
  deriving DecidableEq, Repr

/-- Little-endian decimal digits of a number, with explicit fuel (the number
itself suffices) so that the recursion is structural. -/
def decAux : Nat → Nat → List Nat
  | 0, _ => []
  | _ + 1, 0 => []
  | fuel + 1, n + 1 => (n + 1) % 10 :: decAux fuel ((n + 1) / 10)

/-- Little-endian decimal digits of a positive number; `[]` for zero. -/
def decDigitsRev (n : Nat) : List Nat :=
  decAux n n

/-- Decimal rendering of a natural number, exactly as JavaScript
`Number.prototype.toString()` prints integer values (no sign, no leading
zeros, `0` prints as "0"); used for `Date.now().toString()`. -/
def decRepr (n : Nat) : List Char :=
  if n = 0 then ['0'] else (decDigitsRev n).reverse.map Nat.digitChar

/-- JavaScript `String.prototype.trim()`: strip leading and trailing
whitespace. -/
def jsTrim (s : String) : String :=
  ⟨((s.data.dropWhile Char.isWhitespace).reverse.dropWhile Char.isWhitespace).reverse⟩

/-- Rendering of `Math.random()` (a double in `[0,1)`) when coerced to a
string: `0` prints as "0", any other value as "0." followed by its finite list
`rnd` of fractional decimal digits as printed by the engine. -/
def fracRepr (rnd : List Nat) : List Char :=
  if rnd = [] then ['0'] else '0' :: '.' :: rnd.map Nat.digitChar

/-- Message id built by the call-enabled variant (lines 629, 673, 686, 877,
900): `Date.now().toString() + Math.random()`, i.e. the decimal timestamp
immediately followed by the stringified random draw. -/
def mkId (ts : Nat) (rnd : List Nat) : List Char :=
  decRepr ts ++ fracRepr rnd

/-- Base-36 digit character, lower case, as JavaScript `toString(36)` prints
(0-9 then a-z). -/
def base36Char (d : Nat) : Char :=
  if d < 10 then Char.ofNat (48 + d) else Char.ofNat (87 + d)

/-- Rendering of `Math.random().toString(36)`: `0` prints as "0", any other
value in `(0,1)` as "0." followed by its finite list `frac` of fractional
base-36 digits as printed by the engine (for example `0.5` prints "0.i"). -/
def jsToString36 (frac : List Nat) : List Char :=
  if frac = [] then ['0'] else '0' :: '.' :: frac.map base36Char

/-- JavaScript `String.prototype.substring(a, b)`: the characters at indices
in `[a, b)`, clamped to the string length. -/
def jsSubstring (s : List Char) (a b : Nat) : List Char :=
  (s.drop a).take (b - a)

/-- JavaScript `String.prototype.toUpperCase()` on one ASCII character. -/
def jsUpChar (c : Char) : Char :=
  if 'a' ≤ c ∧ c ≤ 'z' then Char.ofNat (c.toNat - 32) else c

/-- Session-identity generation (line 35 of the base variant, line 550 of the
call variant): `Math.random().toString(36).substring(2, 8).toUpperCase()`,
applied to the base-36 fractional digit list of the random draw. -/
def generatePeerId (frac : List Nat) : List Char :=
  (jsSubstring (jsToString36 frac) 2 8).map jsUpChar

/-- Upper-case alphanumeric ASCII character: one of `0`-`9` or `A`-`Z`. -/
def isUpperAlnum (c : Char) : Bool :=
  (decide ('0' ≤ c) && decide (c ≤ '9')) || (decide ('A' ≤ c) && decide (c ≤ 'Z'))

/-- State of the call-enabled component (lines 515-545): the React state hooks
and the refs the handlers read and write. Media element attachment
(`srcObject`) is one boolean per element; `deviceTracks` are the tracks of the
most recent `getUserMedia` acquisition and `localStreamRef` records whether
`localStreamRef.current` still points at them. `leakedTracks` are the tracks
of every earlier acquisition: `startCall` (line 786) and `answerCall`
(line 818) overwrite `localStreamRef.current` without stopping the previous
stream, so an overwritten stream's tracks survive in whatever state they were
in, unreachable by `stopLocalStream` and the toggles (which operate only on
the current stream). `pendingStartMode` models a `startCall` whose
`getUserMedia` promise has not yet settled. -/
structure AppState where
  peerId : String
  peerOpen : Bool
  targetId : String
  connection : Option String
  status : ConnStatus
  messages : List Message
  inputText : String
  callState : CallState
  callMode : CallMode
  isMuted : Bool
  isCamOff : Bool
  mediaCall : Option MediaCall
  deviceTracks : List Track
  leakedTracks : List Track
  localStreamRef : Bool
  localVideoSrc : Bool
  remoteVideoSrc : Bool
  remoteAudioSrc : Bool
  pendingStartMode : Option CallMode
  deriving DecidableEq, Repr

/-- Initial component state after mount: the `Peer` object exists
(`peerRef.current` is set synchronously in the effect), nothing else yet. -/
def initState : AppState :=
  { peerId := ""
    peerOpen := true
    targetId := ""
    connection := none
    status := .disconnected
    messages := []
    inputText := ""
    callState := .idle
    callMode := .audio
    isMuted := false
    isCamOff := false
    mediaCall := none
    deviceTracks := []
    leakedTracks := []
    localStreamRef := false
    localVideoSrc := false
    remoteVideoSrc := false
    remoteAudioSrc := false
    pendingStartMode := none }

/-- Appends a `system` message (call variant, lines 625-636); the id is
`Date.now().toString() + Math.random()`. -/
def addSystemMessage (s : AppState) (text : String) (ts : Nat) (rnd : List Nat) : AppState :=
  { s with messages := s.messages ++
      [{ id := mkId ts rnd, sender := .system, type := .system, content := text, timestamp := ts }] }

/-- `stopLocalStream` (lines 638-643): if `localStreamRef.current` is set,
stop every track of the stream and clear the ref. -/
def stopLocalStream (s : AppState) : AppState :=
  if s.localStreamRef then
    { s with deviceTracks := s.deviceTracks.map (fun t => { t with stopped := true })
             localStreamRef := false }
  else s

/-- Whether the remote `video` element is mounted: the video panel renders
only while `(callState === 'active' || callState === 'calling') && callMode
=== 'video'` (line 1153). -/
def remoteVideoMounted (s : AppState) : Bool :=
  (s.callState = .active || s.callState = .calling) && s.callMode = .video

/-- Whether the local picture-in-picture `video` element is mounted (same
panel, line 1153). -/
def localVideoMounted (s : AppState) : Bool :=
  remoteVideoMounted s

/-- Whether the remote `audio` element is mounted: it is always rendered
(line 1197, "always rendered so the ref is available"). -/
def remoteAudioMounted (_ : AppState) : Bool :=
  true

/-- `attachStream(localVideoRef, stream)` (lines 727-734): sets `srcObject`
when the element exists, silently does nothing otherwise. -/
def attachLocalVideo (s : AppState) : AppState :=
  if localVideoMounted s then { s with localVideoSrc := true } else s

/-- `attachStream(remoteVideoRef, stream)` (lines 727-734). -/
def attachRemoteVideo (s : AppState) : AppState :=
  if remoteVideoMounted s then { s with remoteVideoSrc := true } else s

/-- `attachStream(remoteAudioRef, stream)` (lines 727-734). -/
def attachRemoteAudio (s : AppState) : AppState :=
  if remoteAudioMounted s then { s with remoteAudioSrc := true } else s

/-- `handleCallEnded(reason)` (lines 760-770): stop the local stream, detach
all three media elements, drop the call handle, return to `idle`, reset the
mute and camera flags, and append a system notice with the reason. -/
def handleCallEnded (s : AppState) (reason : String) (ts : Nat) (rnd : List Nat) : AppState :=
  let s1 := stopLocalStream s
  let s2 := { s1 with localVideoSrc := false
                      remoteVideoSrc := false
                      remoteAudioSrc := false
                      mediaCall := none
                      callState := CallState.idle
                      isMuted := false
                      isCamOff := false }
  addSystemMessage s2 reason ts rnd

/-- `connectToPeer` (lines 715-720, identical guard in the base variant lines
142-150): bail out when the peer handle is missing or the trimmed target id is
empty; otherwise set `connecting` and register a fresh outbound connection via
`handleDataConnection` (which stores it in `connectionRef`). There is no check
of the current `status`. -/
def connectToPeer (s : AppState) : AppState :=
  if s.peerOpen = false ∨ jsTrim s.targetId = "" then s
  else { s with status := .connecting, connection := some (jsTrim s.targetId) }

/-- `conn.on('open')` handler inside `handleDataConnection` (lines 663-666). -/
def connOpenEvent (s : AppState) (ts : Nat) (rnd : List Nat) : AppState :=
  match s.connection with
  | none => s
  | some p =>
      addSystemMessage { s with status := .connected } ("已与 " ++ p ++ " 建立数据通道") ts rnd

/-- `conn.on('data')` handler (lines 668-697): `text` appends a remote text
message, `file-start` appends a system notice, `file` appends a completed
remote file message carrying the full payload; anything else is ignored. -/
def connDataEvent (s : AppState) (f : Frame) (ts : Nat) (rnd : List Nat) : AppState :=
  match s.connection with
  | none => s
  | some p =>
      match f with
      | .text c =>
          { s with messages := s.messages ++
              [{ id := mkId ts rnd, sender := .remote, type := .text, content := c,
                 timestamp := ts }] }
      | .fileStart n _ =>
          addSystemMessage s (p ++ " 正在发送文件: " ++ n) ts rnd
      | .file d n sz =>
          { s with messages := s.messages ++
              [{ id := mkId ts rnd, sender := .remote, type := .file, content := "文件已接收",
                 timestamp := ts, fileName := some n, fileSize := some sz,
                 fileData := some d }] }
      | .other _ => s

/-- `conn.on('close')` handler (lines 699-704). -/
def connCloseEvent (s : AppState) (ts : Nat) (rnd : List Nat) : AppState :=
  match s.connection with
  | none => s
  | some _ =>
      addSystemMessage { s with status := .disconnected, connection := none }
        "数据通道已断开" ts rnd

/-- `conn.on('error')` handler (lines 706-712). -/
def connErrorEvent (s : AppState) (errText : String) (ts : Nat) (rnd : List Nat) : AppState :=
  match s.connection with
  | none => s
  | some _ =>
      addSystemMessage { s with status := .disconnected, connection := none }
        ("连接错误: " ++ errText) ts rnd

/-- `peer.on('error')` handler (lines 577-590): sets `disconnected` and
appends a system message whose id is the bare `Date.now().toString()`. -/
def peerErrorEvent (s : AppState) (errText : String) (ts : Nat) : AppState :=
  { s with status := .disconnected,
           messages := s.messages ++
             [{ id := decRepr ts, sender := .system, type := .system,
                content := "连接异常: " ++ errText, timestamp := ts }] }

/-- `peer.on('call')` handler (lines 568-575): store the call, read the mode
from the metadata (defaulting to audio), go to `incoming`, append a notice.
The close/error handlers are NOT registered here. -/
def incomingCallEvent (s : AppState) (caller : String) (mmode : Option CallMode)
    (ts : Nat) (rnd : List Nat) : AppState :=
  let mode := mmode.getD .audio
  addSystemMessage
    { s with mediaCall := some { peer := caller, mode := mode, wired := false }
             callMode := mode
             callState := .incoming }
    ("收到来自 " ++ caller ++ " 的" ++ (if mode = .video then "视频" else "语音") ++ "通话请求")
    ts rnd

/-- Synchronous prefix of `startCall(mode)` (lines 774-779): guard on the peer
handle and the trimmed target id, then set the mode, enter `calling`, and
launch `getUserMedia` (modelled as the pending acquisition). -/
def startCallBegin (s : AppState) (mode : CallMode) : AppState :=
  if s.peerOpen = false ∨ jsTrim s.targetId = "" then s
  else { s with callMode := mode, callState := .calling, pendingStartMode := some mode }

/-- Resolution of `startCall`'s `getUserMedia` promise (lines 780-799): store
the stream — line 786 assigns `localStreamRef.current = stream` without
stopping a previously held stream, so the old tracks move to `leakedTracks`
unchanged — attach the local preview for video mode, place the call with the
mode in its metadata, wire it up via `setupMediaCall`, and append a notice. -/
def startCallMediaOk (s : AppState) (tracks : List Track) (ts : Nat) (rnd : List Nat) : AppState :=
  match s.pendingStartMode with
  | none => s
  | some mode =>
      let s1 := { s with pendingStartMode := none
                         leakedTracks := s.leakedTracks ++ s.deviceTracks
                         deviceTracks := tracks
                         localStreamRef := true }
      let s2 := if mode = .video then attachLocalVideo s1 else s1
      let s3 := { s2 with mediaCall := some { peer := jsTrim s.targetId, mode := mode, wired := true } }
      addSystemMessage s3
        ("正在呼叫 " ++ jsTrim s.targetId ++ " ("
          ++ (if mode = .video then "视频通话" else "语音通话") ++ ")…") ts rnd

/-- Rejection of `startCall`'s `getUserMedia` promise (lines 800-803): back to
`idle` with a notice; nothing else is touched. -/
def startCallMediaErr (s : AppState) (errText : String) (ts : Nat) (rnd : List Nat) : AppState :=
  match s.pendingStartMode with
  | none => s
  | some _ =>
      addSystemMessage { s with pendingStartMode := none, callState := .idle }
        ("无法获取媒体设备: " ++ errText) ts rnd

/-- Resolution of `answerCall`'s `getUserMedia` promise (lines 808-825): store
the stream — line 818 assigns `localStreamRef.current = stream` without
stopping a previously held stream, so the old tracks move to `leakedTracks`
unchanged — attach the local preview for video mode (per the state's
`callMode`), answer, and wire the call via `setupMediaCall`. The call state is
not changed here; it only changes when the remote stream arrives. -/
def answerMediaOk (s : AppState) (tracks : List Track) : AppState :=
  match s.mediaCall with
  | none => s
  | some mc =>
      let s1 := { s with leakedTracks := s.leakedTracks ++ s.deviceTracks,
                         deviceTracks := tracks, localStreamRef := true }
      let s2 := if s.callMode = .video then attachLocalVideo s1 else s1
      { s2 with mediaCall := some { mc with wired := true } }

/-- Rejection of `answerCall`'s `getUserMedia` promise (lines 826-829): back
to `idle` with a notice; the stored call handle is left in place. -/
def answerMediaErr (s : AppState) (errText : String) (ts : Nat) (rnd : List Nat) : AppState :=
  match s.mediaCall with
  | none => s
  | some _ =>
      addSystemMessage { s with callState := .idle }
        ("无法获取媒体设备: " ++ errText) ts rnd

/-- `call.on('stream')` handler registered by `setupMediaCall` (lines
739-749): attach the remote stream to the video or audio element according to
the call's metadata mode, then enter `active` and append a notice. The event
can only fire on a call whose handlers were registered. -/
def streamEvent (s : AppState) (ts : Nat) (rnd : List Nat) : AppState :=
  match s.mediaCall with
  | none => s
  | some mc =>
      if mc.wired then
        let s1 := if mc.mode = .video then attachRemoteVideo s else attachRemoteAudio s
        addSystemMessage { s1 with callState := .active } "通话已接通" ts rnd
      else s

/-- `call.on('close')` handler registered by `setupMediaCall` (lines 751-753):
runs `handleCallEnded`. A remote close on a call whose handlers were never
registered (an unanswered incoming call) has no local effect. -/
def callCloseEvent (s : AppState) (ts : Nat) (rnd : List Nat) : AppState :=
  match s.mediaCall with
  | none => s
  | some mc =>
      if mc.wired then handleCallEnded s "对方已挂断" ts rnd else s

/-- `call.on('error')` handler registered by `setupMediaCall` (lines 755-757). -/
def callErrorEvent (s : AppState) (errText : String) (ts : Nat) (rnd : List Nat) : AppState :=
  match s.mediaCall with
  | none => s
  | some mc =>
      if mc.wired then handleCallEnded s ("通话错误: " ++ errText) ts rnd else s

/-- `rejectCall` (lines 834-839): close and drop the stored call, go to
`idle`, append a notice. No stream cleanup and no flag reset happens here. -/
def rejectCall (s : AppState) (ts : Nat) (rnd : List Nat) : AppState :=
  addSystemMessage { s with mediaCall := none, callState := .idle } "已拒绝通话" ts rnd

/-- `hangUp` (lines 841-844): close the stored call and run `handleCallEnded`. -/
def hangUp (s : AppState) (ts : Nat) (rnd : List Nat) : AppState :=
  handleCallEnded s "通话已结束" ts rnd

/-- `toggleMute` (lines 848-855): with no local stream it returns at once;
otherwise every local audio track's `enabled` flag is set to the current value
of `isMuted`, and `isMuted` is flipped. -/
def toggleMute (s : AppState) : AppState :=
  if s.localStreamRef then
    { s with
        deviceTracks := s.deviceTracks.map
          (fun t => if t.kind = .audio then { t with enabled := s.isMuted } else t),
        isMuted := !s.isMuted }
  else s

/-- `toggleCamera` (lines 857-864): with no local stream it returns at once;
otherwise every local video track's `enabled` flag is set to the current value
of `isCamOff`, and `isCamOff` is flipped. -/
def toggleCamera (s : AppState) : AppState :=
  if s.localStreamRef then
    { s with
        deviceTracks := s.deviceTracks.map
          (fun t => if t.kind = .video then { t with enabled := s.isCamOff } else t),
        isCamOff := !s.isCamOff }
  else s

/-- `sendMessage` (lines 868-885): guard on the connection ref and the trimmed
input; send a `text` frame carrying the untrimmed input, append a `me` message
with the same content, clear the input. Returns the new state and the frames
put on the channel. -/
def sendMessage (s : AppState) (ts : Nat) (rnd : List Nat) : AppState × List Frame :=
  match s.connection with
  | none => (s, [])
  | some _ =>
      if jsTrim s.inputText = "" then (s, [])
      else
        ({ s with
             messages := s.messages ++
               [{ id := mkId ts rnd, sender := .me, type := .text, content := s.inputText,
                  timestamp := ts }],
             inputText := "" },
         [Frame.text s.inputText])

/-- `sendFile(file)` (lines 887-912): guard on the connection ref; send a
`file-start` frame with the name and declared size, then (in the
`FileReader.onload` continuation) send a `file` frame with the full byte
payload and append a `me` file message holding the same payload. Returns the
new state and the two frames in send order. -/
def sendFile (s : AppState) (f : FileBlob) (ts : Nat) (rnd : List Nat) : AppState × List Frame :=
  match s.connection with
  | none => (s, [])
  | some _ =>
      ({ s with messages := s.messages ++
            [{ id := mkId ts rnd, sender := .me, type := .file, content := "文件已发送",
               timestamp := ts, fileName := some f.name, fileSize := some f.size,
               fileData := some f.data }] },
       [Frame.fileStart f.name f.size, Frame.file f.data f.name f.size])

/-- Base-variant `conn.on('data')` handler (lines 96-126): its effect on the
message log. Text messages get the bare `Date.now().toString()` as id; file
messages get the timestamp followed by a 7-character base-36 suffix of the
random draw (`Math.random().toString(36).substring(2, 9)`). -/
def baseConnData (msgs : List Message) (peer : String) (f : Frame) (ts : Nat)
    (rnd36 : List Nat) : List Message :=
  match f with
  | .text c =>
      msgs ++ [{ id := decRepr ts, sender := .remote, type := .text, content := c,
                 timestamp := ts }]
  | .fileStart n _ =>
      msgs ++ [{ id := decRepr ts, sender := .system, type := .system,
                 content := peer ++ " 正在发送文件: " ++ n, timestamp := ts }]
  | .file d n sz =>
      msgs ++ [{ id := decRepr ts ++ jsSubstring (jsToString36 rnd36) 2 9,
                 sender := .remote, type := .file, content := "文件已接收",
                 timestamp := ts, fileName := some n, fileSize := some sz,
                 fileData := some d }]
  | .other _ => msgs

/-- Base-variant `addSystemMessage` (lines 152-163): the id is the bare
`Date.now().toString()`. -/
def baseAddSystemMessage (msgs : List Message) (text : String) (ts : Nat) : List Message :=
  msgs ++ [{ id := decRepr ts, sender := .system, type := .system, content := text,
             timestamp := ts }]

/-- Base-variant `sendMessage` local echo (lines 165-183): the id is the bare
`Date.now().toString()`. -/
def baseSendEcho (msgs : List Message) (body : String) (ts : Nat) : List Message :=
  msgs ++ [{ id := decRepr ts, sender := .me, type := .text, content := body,
             timestamp := ts }]

/-- One occurrence on the component's event loop: a user action, a connection
or peer callback, a media callback, or the settlement of a `getUserMedia`
promise. Callbacks that create a message carry the `Date.now()` value `ts` and
the decimal fractional digits `rnd` of the `Math.random()` draw they consume. -/
inductive Event
  | setTarget (t : String)
  | connectClick
  | connOpen (ts : Nat) (rnd : List Nat)
  | connData (f : Frame) (ts : Nat) (rnd : List Nat)
  | connClose (ts : Nat) (rnd : List Nat)
  | connError (errText : String) (ts : Nat) (rnd : List Nat)
  | peerErr (errText : String) (ts : Nat)
  | setInput (t : String)
  | sendClick (ts : Nat) (rnd : List Nat)
  | sendFileClick (f : FileBlob) (ts : Nat) (rnd : List Nat)
  | incoming (caller : String) (mmode : Option CallMode) (ts : Nat) (rnd : List Nat)
  | startBegin (mode : CallMode)
  | startOk (tracks : List Track) (ts : Nat) (rnd : List Nat)
  | startErr (errText : String) (ts : Nat) (rnd : List Nat)
  | answerOk (tracks : List Track)
  | answerErr (errText : String) (ts : Nat) (rnd : List Nat)
  | streamArrives (ts : Nat) (rnd : List Nat)
  | callClosed (ts : Nat) (rnd : List Nat)
  | callErrored (errText : String) (ts : Nat) (rnd : List Nat)
  | rejectClick (ts : Nat) (rnd : List Nat)
  | hangUpClick (ts : Nat) (rnd : List Nat)
  | muteClick
  | cameraClick
  deriving DecidableEq, Repr

/-- The component's reaction to one event, assembled from the handlers above. -/
def step (s : AppState) (e : Event) : AppState :=
  match e with
  | .setTarget t => { s with targetId := t }
  | .connectClick => connectToPeer s
  | .connOpen ts rnd => connOpenEvent s ts rnd
  | .connData f ts rnd => connDataEvent s f ts rnd
  | .connClose ts rnd => connCloseEvent s ts rnd
  | .connError e ts rnd => connErrorEvent s e ts rnd
  | .peerErr e ts => peerErrorEvent s e ts
  | .setInput t => { s with inputText := t }
  | .sendClick ts rnd => (sendMessage s ts rnd).1
  | .sendFileClick f ts rnd => (sendFile s f ts rnd).1
  | .incoming c m ts rnd => incomingCallEvent s c m ts rnd
  | .startBegin m => startCallBegin s m
  | .startOk tr ts rnd => startCallMediaOk s tr ts rnd
  | .startErr e ts rnd => startCallMediaErr s e ts rnd
  | .answerOk tr => answerMediaOk s tr
  | .answerErr e ts rnd => answerMediaErr s e ts rnd
  | .streamArrives ts rnd => streamEvent s ts rnd
  | .callClosed ts rnd => callCloseEvent s ts rnd
  | .callErrored e ts rnd => callErrorEvent s e ts rnd
  | .rejectClick ts rnd => rejectCall s ts rnd
  | .hangUpClick ts rnd => hangUp s ts rnd
  | .muteClick => toggleMute s
  | .cameraClick => toggleCamera s

/-- Replay of an event trace from a state. -/
def run (s : AppState) (es : List Event) : AppState :=
  es.foldl step s

/-- States the call-enabled component can actually be in: the initial state
and everything the event loop can produce from it. -/
inductive Reachable : AppState → Prop
  | init : Reachable initState
  | next {s : AppState} (h : Reachable s) (e : Event) : Reachable (step s e)

/-- The `(Date.now(), Math.random())` pair an event consumes for its message
id, when it consumes one. -/
def Event.stamp : Event → Nat × List Nat
  | .setTarget _ => (0, [])
  | .connectClick => (0, [])
  | .connOpen ts rnd => (ts, rnd)
  | .connData _ ts rnd => (ts, rnd)
  | .connClose ts rnd => (ts, rnd)
  | .connError _ ts rnd => (ts, rnd)
  | .peerErr _ ts => (ts, [])
  | .setInput _ => (0, [])
  | .sendClick ts rnd => (ts, rnd)
  | .sendFileClick _ ts rnd => (ts, rnd)
  | .incoming _ _ ts rnd => (ts, rnd)
  | .startBegin _ => (0, [])
  | .startOk _ ts rnd => (ts, rnd)
  | .startErr _ ts rnd => (ts, rnd)
  | .answerOk _ => (0, [])
  | .answerErr _ ts rnd => (ts, rnd)
  | .streamArrives ts rnd => (ts, rnd)
  | .callClosed ts rnd => (ts, rnd)
  | .callErrored _ ts rnd => (ts, rnd)
  | .rejectClick ts rnd => (ts, rnd)
  | .hangUpClick ts rnd => (ts, rnd)
  | .muteClick => (0, [])
  | .cameraClick => (0, [])

/-- Whether the event is the `peer.on('error')` callback (the one handler
whose message id omits the random component). -/
def Event.isPeerErr : Event → Bool
  | .peerErr _ _ => true
  | _ => false

/-- Whether the event is the `call.on('stream')` callback. -/
def Event.isStream : Event → Bool
  | .streamArrives _ _ => true
  | _ => false

/-- Value of a little-endian decimal digit list; inverts `decDigitsRev`. -/
def ofDigitsLE : List Nat → Nat
  | [] => 0
  | d :: ds => d + 10 * ofDigitsLE ds

/-- An audio device track as `getUserMedia` hands it out: enabled, not stopped. -/
def freshAudioTrack : Track :=
  { kind := .audio, enabled := true, stopped := false }

/-- A video device track as `getUserMedia` hands it out. -/
def freshVideoTrack : Track :=
  { kind := .video, enabled := true, stopped := false }

/-- Trace: connect out to peer AB and the data channel opens. -/
def c2Trace : List Event :=
  [.setTarget "AB", .connectClick, .connOpen 1 [1]]

/-- A connected state, for exercising a redundant `connectToPeer`. -/
def c2State : AppState :=
  run initState c2Trace

/-- A state where a remote video offer has arrived and is still unanswered. -/
def c3State : AppState :=
  run initState [.incoming "P" (some .video) 1 [1]]

/-- Trace: the callee answers an incoming video call and the remote stream
arrives while the state is still `incoming`. -/
def c4Trace : List Event :=
  [.incoming "P" (some .video) 1 [1], .answerOk [freshAudioTrack, freshVideoTrack],
   .streamArrives 2 [2]]

/-- The state produced by `c4Trace`. -/
def c4State : AppState :=
  run initState c4Trace

/-- Trace: an audio call is started, media is acquired, no answer yet. -/
def c5Trace : List Event :=
  [.setTarget "AB", .startBegin .audio, .startOk [freshAudioTrack] 1 [1]]

/-- The `calling` state produced by `c5Trace`. -/
def c5State : AppState :=
  run initState c5Trace

/-- Trace: an active audio call, then a second incoming audio call is
answered from within it (nothing guards `peer.on('call')` or the answer
button against an existing call), which overwrites the local stream without
stopping the first one; then the user hangs up. The state just before the
hang-up. -/
def c5PreTrace : List Event :=
  [.setTarget "AB", .startBegin .audio, .startOk [freshAudioTrack] 1 [1], .streamArrives 2 [2],
   .incoming "P" (some .audio) 3 [3], .answerOk [freshAudioTrack], .streamArrives 4 [4]]

/-- The `active` second-call state produced by `c5PreTrace`, holding the
first acquisition's still-live audio track in `leakedTracks`. -/
def c5PreHangup : AppState :=
  run initState c5PreTrace

/-- A connected state with text typed into the input box. -/
def c6State : AppState :=
  { initState with connection := some "B", inputText := "hello" }

/-- A connected sender, about to transfer a file. -/
def c1SendState : AppState :=
  { initState with status := .connected, connection := some "B" }

/-- A connected receiver. -/
def c1RecvState : AppState :=
  { initState with status := .connected, connection := some "A" }

/-- A small concrete file. -/
def c1File : FileBlob :=
  { name := "notes.txt", size := 3, data := [104, 105, 10] }

/-- Trace reaching an `active` audio call whose audio track is enabled while
`isMuted` is still `true`: mute during a call, then invoke `startCall` again
from within it (the source guards `startCall` only on the peer handle and the
target id), and let the fresh call connect with its tracks enabled. -/
def c9Trace : List Event :=
  [.setTarget "AB", .startBegin .audio, .startOk [freshAudioTrack] 1 [1], .streamArrives 2 [2],
   .muteClick, .startBegin .audio, .startOk [freshAudioTrack] 3 [3], .streamArrives 4 [4]]

/-- The out-of-sync `active` state produced by `c9Trace`. -/
def c9State : AppState :=
  run initState c9Trace

/-- Trace reaching an ordinary `active` audio call with mute untouched. -/
def c9SyncTrace : List Event :=
  [.setTarget "AB", .startBegin .audio, .startOk [freshAudioTrack] 1 [1], .streamArrives 2 [2]]

/-- The in-sync `active` state produced by `c9SyncTrace`. -/
def c9SyncState : AppState :=
  run initState c9SyncTrace

/-- The base-variant log after two text frames arrive within the same
millisecond (`Date.now()` returns 100 for both). -/
def c8Msgs : List Message :=
  baseConnData (baseConnData [] "P" (Frame.text "a") 100 []) "P" (Frame.text "b") 100 []

/-- Invariant of the call-enabled component: an `active` call has a live local
stream; a call handle with registered handlers implies a live local stream
(handlers are registered only right after `getUserMedia` succeeds); and once
`localStreamRef` is cleared, every acquired device track has been stopped
(`stopLocalStream` is the only code clearing the ref). -/
def Inv (s : AppState) : Prop :=
  (s.callState = CallState.active → s.localStreamRef = true)
  ∧ (∀ mc : MediaCall, s.mediaCall = some mc → mc.wired = true → s.localStreamRef = true)
  ∧ (s.localStreamRef = false → ∀ t ∈ s.deviceTracks, t.stopped = true)

theorem inv_init : Inv initState := by
  refine ⟨fun hx => by simp [initState] at hx, fun mc hmc => by simp [initState] at hmc,
    fun _ t ht => by simp [initState] at ht⟩

theorem inv_step (s : AppState) (e : Event) (h : Inv s) : Inv (step s e) := by
  obtain ⟨h1, h2, h3⟩ := h
  cases e with
  | setTarget t => exact ⟨h1, h2, h3⟩
  | connectClick =>
      by_cases hc : s.peerOpen = false ∨ jsTrim s.targetId = ""
      · simp only [step, connectToPeer, if_pos hc]
        exact ⟨h1, h2, h3⟩
      · simp only [step, connectToPeer, if_neg hc]
        exact ⟨h1, h2, h3⟩
  | connOpen ts rnd =>
      cases hc : s.connection with
      | none => simp only [step, connOpenEvent, hc]; exact ⟨h1, h2, h3⟩
      | some p => simp only [step, connOpenEvent, hc, addSystemMessage]; exact ⟨h1, h2, h3⟩
  | connData f ts rnd =>
      cases hc : s.connection with
      | none => simp only [step, connDataEvent, hc]; exact ⟨h1, h2, h3⟩
      | some p =>
          cases f <;> simp only [step, connDataEvent, hc, addSystemMessage] <;>
            exact ⟨h1, h2, h3⟩
  | connClose ts rnd =>
      cases hc : s.connection with
      | none => simp only [step, connCloseEvent, hc]; exact ⟨h1, h2, h3⟩
      | some p => simp only [step, connCloseEvent, hc, addSystemMessage]; exact ⟨h1, h2, h3⟩
  | connError e ts rnd =>
      cases hc : s.connection with
      | none => simp only [step, connErrorEvent, hc]; exact ⟨h1, h2, h3⟩
      | some p => simp only [step, connErrorEvent, hc, addSystemMessage]; exact ⟨h1, h2, h3⟩
  | peerErr e ts => exact ⟨h1, h2, h3⟩
  | setInput t => exact ⟨h1, h2, h3⟩
  | sendClick ts rnd =>
      cases hc : s.connection with
      | none => simp only [step, sendMessage, hc]; exact ⟨h1, h2, h3⟩
      | some p =>
          by_cases ht : jsTrim s.inputText = ""
          · simp only [step, sendMessage, hc, if_pos ht]; exact ⟨h1, h2, h3⟩
          · simp only [step, sendMessage, hc, if_neg ht]; exact ⟨h1, h2, h3⟩
  | sendFileClick f ts rnd =>
      cases hc : s.connection with
      | none => simp only [step, sendFile, hc]; exact ⟨h1, h2, h3⟩
      | some p => simp only [step, sendFile, hc]; exact ⟨h1, h2, h3⟩
  | incoming c m ts rnd =>
      refine ⟨fun hx => CallState.noConfusion hx, fun mc2 hmc2 hw2 => ?_, h3⟩
      have h4 := Option.some.inj hmc2
      rw [← h4] at hw2
      exact Bool.noConfusion hw2
  | startBegin m =>
      by_cases hc : s.peerOpen = false ∨ jsTrim s.targetId = ""
      · simp only [step, startCallBegin, if_pos hc]
        exact ⟨h1, h2, h3⟩
      · simp only [step, startCallBegin, if_neg hc]
        exact ⟨fun hx => CallState.noConfusion hx, h2, h3⟩
  | startOk tr ts rnd =>
      cases hp : s.pendingStartMode with
      | none => simp only [step, startCallMediaOk, hp]; exact ⟨h1, h2, h3⟩
      | some mode =>
          simp only [step, startCallMediaOk, hp, attachLocalVideo, addSystemMessage]
          refine ⟨fun _ => ?_, fun _ _ _ => ?_, fun hx => ?_⟩ <;>
            simp only [apply_ite AppState.localStreamRef, ite_self] at *
          all_goals first | rfl | exact Bool.noConfusion hx
  | startErr e ts rnd =>
      cases hp : s.pendingStartMode with
      | none => simp only [step, startCallMediaErr, hp]; exact ⟨h1, h2, h3⟩
      | some mode =>
          simp only [step, startCallMediaErr, hp, addSystemMessage]
          exact ⟨fun hx => CallState.noConfusion hx, h2, h3⟩
  | answerOk tr =>
      cases hmc : s.mediaCall with
      | none => simp only [step, answerMediaOk, hmc]; exact ⟨h1, h2, h3⟩
      | some mc =>
          simp only [step, answerMediaOk, hmc, attachLocalVideo]
          refine ⟨fun _ => ?_, fun _ _ _ => ?_, fun hx => ?_⟩ <;>
            simp only [apply_ite AppState.localStreamRef, ite_self] at *
          all_goals first | rfl | exact Bool.noConfusion hx
  | answerErr e ts rnd =>
      cases hmc : s.mediaCall with
      | none => simp only [step, answerMediaErr, hmc]; exact ⟨h1, h2, h3⟩
      | some mc =>
          simp only [step, answerMediaErr, hmc, addSystemMessage]
          exact ⟨fun hx => CallState.noConfusion hx,
            fun mc2 hmc2 hw2 => h2 mc2 (hmc.trans hmc2) hw2, h3⟩
  | streamArrives ts rnd =>
      cases hmc : s.mediaCall with
      | none => simp only [step, streamEvent, hmc]; exact ⟨h1, h2, h3⟩
      | some mc =>
          simp only [step, streamEvent, hmc]
          by_cases hw : mc.wired = true
          · have href : s.localStreamRef = true := h2 mc hmc hw
            simp only [if_pos hw, attachRemoteVideo, attachRemoteAudio, addSystemMessage]
            refine ⟨fun _ => ?_, fun mc2 hmc2 hw2 => ?_, fun hx => ?_⟩ <;>
              simp only [apply_ite AppState.localStreamRef, apply_ite AppState.mediaCall,
                apply_ite AppState.deviceTracks, ite_self] at *
            all_goals first | exact href | (rw [href] at hx; exact Bool.noConfusion hx)
          · simp only [if_neg hw]
            exact ⟨h1, h2, h3⟩
  | callClosed ts rnd =>
      cases hmc : s.mediaCall with
      | none => simp only [step, callCloseEvent, hmc]; exact ⟨h1, h2, h3⟩
      | some mc =>
          simp only [step, callCloseEvent, hmc]
          by_cases hw : mc.wired = true
          · simp only [if_pos hw]
            by_cases hs : s.localStreamRef = true
            · simp only [handleCallEnded, stopLocalStream, if_pos hs, addSystemMessage]
              refine ⟨fun hx => CallState.noConfusion hx, fun mc2 hmc2 _ => Option.noConfusion hmc2, fun _ t ht => ?_⟩
              obtain ⟨t0, _, rfl⟩ := List.mem_map.mp ht
              rfl
            · simp only [handleCallEnded, stopLocalStream, if_neg hs, addSystemMessage]
              refine ⟨fun hx => CallState.noConfusion hx, fun mc2 hmc2 _ => Option.noConfusion hmc2, fun _ t ht => ?_⟩
              exact h3 (by simpa using hs) t ht
          · simp only [if_neg hw]
            exact ⟨h1, h2, h3⟩
  | callErrored e ts rnd =>
      cases hmc : s.mediaCall with
      | none => simp only [step, callErrorEvent, hmc]; exact ⟨h1, h2, h3⟩
      | some mc =>
          simp only [step, callErrorEvent, hmc]
          by_cases hw : mc.wired = true
          · simp only [if_pos hw]
            by_cases hs : s.localStreamRef = true
            · simp only [handleCallEnded, stopLocalStream, if_pos hs, addSystemMessage]
              refine ⟨fun hx => CallState.noConfusion hx, fun mc2 hmc2 _ => Option.noConfusion hmc2, fun _ t ht => ?_⟩
              obtain ⟨t0, _, rfl⟩ := List.mem_map.mp ht
              rfl
            · simp only [handleCallEnded, stopLocalStream, if_neg hs, addSystemMessage]
              refine ⟨fun hx => CallState.noConfusion hx, fun mc2 hmc2 _ => Option.noConfusion hmc2, fun _ t ht => ?_⟩
              exact h3 (by simpa using hs) t ht
          · simp only [if_neg hw]
            exact ⟨h1, h2, h3⟩
  | rejectClick ts rnd =>
      simp only [step, rejectCall, addSystemMessage]
      exact ⟨fun hx => CallState.noConfusion hx, fun mc2 hmc2 _ => Option.noConfusion hmc2, h3⟩
  | hangUpClick ts rnd =>
      by_cases hs : s.localStreamRef = true
      · simp only [step, hangUp, handleCallEnded, stopLocalStream, if_pos hs, addSystemMessage]
        refine ⟨fun hx => CallState.noConfusion hx, fun mc2 hmc2 _ => Option.noConfusion hmc2, fun _ t ht => ?_⟩
        obtain ⟨t0, _, rfl⟩ := List.mem_map.mp ht
        rfl
      · simp only [step, hangUp, handleCallEnded, stopLocalStream, if_neg hs, addSystemMessage]
        refine ⟨fun hx => CallState.noConfusion hx, fun mc2 hmc2 _ => Option.noConfusion hmc2, fun _ t ht => ?_⟩
        exact h3 (by simpa using hs) t ht
  | muteClick =>
      by_cases hs : s.localStreamRef = true
      · simp only [step, toggleMute, if_pos hs]
        refine ⟨fun _ => hs, fun _ _ _ => hs, fun hx => ?_⟩
        have hx2 : s.localStreamRef = false := hx
        rw [hs] at hx2
        exact Bool.noConfusion hx2
      · simp only [step, toggleMute, if_neg hs]
        exact ⟨h1, h2, h3⟩
  | cameraClick =>
      by_cases hs : s.localStreamRef = true
      · simp only [step, toggleCamera, if_pos hs]
        refine ⟨fun _ => hs, fun _ _ _ => hs, fun hx => ?_⟩
        have hx2 : s.localStreamRef = false := hx
        rw [hs] at hx2
        exact Bool.noConfusion hx2
      · simp only [step, toggleCamera, if_neg hs]
        exact ⟨h1, h2, h3⟩

theorem reachable_inv {s : AppState} (h : Reachable s) : Inv s := by
  induction h with
  | init => exact inv_init
  | next _ e ih => exact inv_step _ e ih

/-- The `calling` state of `c5Trace` is reachable. -/
theorem c5State_reachable : Reachable c5State :=
  ((Reachable.init.next (Event.setTarget "AB")).next (Event.startBegin .audio)).next
    (Event.startOk [freshAudioTrack] 1 [1])

/-- C10: with no local media stream (`localStreamRef.current` null, as while
the Call is `idle` or `incoming` before answering), `toggleMute` and
`toggleCamera` are total no-ops: they raise no error and leave the mute flag,
the camera-off flag, and all other component state unchanged. -/
theorem c10_toggle_noop_without_stream (s : AppState) (h : s.localStreamRef = false) :
    toggleMute s = s ∧ toggleCamera s = s := by
  refine ⟨?_, ?_⟩ <;> simp [toggleMute, toggleCamera, h]

/-- Witness for C10 at the initial state (call `idle`, no stream). -/
theorem c10_witness : toggleMute initState = initState ∧ toggleCamera initState = initState :=
  c10_toggle_noop_without_stream initState rfl

/-- C6: for every input whose trimmed content is non-empty, sent while a
connection handle is present, `sendMessage` appends exactly one `me`-authored
text Message with content equal to the sent body to the sender's log in the
same synchronous handler that emits the frame (no acknowledgment wait), and
the receiver's `data` handler appends exactly one `remote` Message with
identical content on delivery of that frame. -/
theorem c6_sendText_roundtrip (s : AppState) (p : String) (ts : Nat) (rnd : List Nat)
    (hconn : s.connection = some p) (hbody : jsTrim s.inputText ≠ "") :
    (sendMessage s ts rnd).1.messages =
      s.messages ++ [{ id := mkId ts rnd, sender := .me, type := .text,
                       content := s.inputText, timestamp := ts }]
    ∧ (sendMessage s ts rnd).2 = [Frame.text s.inputText]
    ∧ ∀ (r : AppState) (q : String) (tr : Nat) (rr : List Nat), r.connection = some q →
        (connDataEvent r (Frame.text s.inputText) tr rr).messages =
          r.messages ++ [{ id := mkId tr rr, sender := .remote, type := .text,
                           content := s.inputText, timestamp := tr }] := by
  refine ⟨?_, ?_, ?_⟩
  · simp [sendMessage, hconn, hbody]
  · simp [sendMessage, hconn, hbody]
  · intro r q tr rr hq
    simp [connDataEvent, hq]

/-- Witness for C6: the body "hello" sent from a connected state. -/
theorem c6_witness :
    (sendMessage c6State 5 [1]).1.messages =
      c6State.messages ++ [{ id := mkId 5 [1], sender := .me, type := .text,
                             content := "hello", timestamp := 5 }]
    ∧ (sendMessage c6State 5 [1]).2 = [Frame.text "hello"]
    ∧ (connDataEvent c1RecvState (Frame.text "hello") 6 [2]).messages =
        c1RecvState.messages ++ [{ id := mkId 6 [2], sender := .remote, type := .text,
                                   content := "hello", timestamp := 6 }] := by
  have h := c6_sendText_roundtrip c6State "B" 5 [1] rfl (by decide)
  exact ⟨h.1, h.2.1, h.2.2 c1RecvState "A" 6 [2] rfl⟩

/-- C1: for every file sent while the Connection is connected, `sendFile`
emits the `file-start` frame followed by the `file` frame carrying the
complete byte payload; a receiver that gets those frames in order (the
reliable ordered channel) appends first the `file-start` system notice and
then — strictly after it in the log — a completed `remote` file Message whose
byte payload equals the sender's original file bytes. -/
theorem c1_file_roundtrip (sSend : AppState) (p : String) (f : FileBlob)
    (ts0 : Nat) (rnd0 : List Nat)
    (hst : sSend.status = ConnStatus.connected) (hconn : sSend.connection = some p) :
    (sendFile sSend f ts0 rnd0).2 =
      [Frame.fileStart f.name f.size, Frame.file f.data f.name f.size]
    ∧ ∀ (r : AppState) (q : String) (ts1 ts2 : Nat) (rnd1 rnd2 : List Nat),
        r.connection = some q →
        (connDataEvent (connDataEvent r (Frame.fileStart f.name f.size) ts1 rnd1)
            (Frame.file f.data f.name f.size) ts2 rnd2).messages =
          r.messages ++
            [{ id := mkId ts1 rnd1, sender := .system, type := .system,
               content := q ++ " 正在发送文件: " ++ f.name, timestamp := ts1 },
             { id := mkId ts2 rnd2, sender := .remote, type := .file,
               content := "文件已接收", timestamp := ts2, fileName := some f.name,
               fileSize := some f.size, fileData := some f.data }] := by
  refine ⟨?_, ?_⟩
  · simp [sendFile, hconn]
  · intro r q ts1 ts2 rnd1 rnd2 hq
    simp [connDataEvent, hq, addSystemMessage]

/-- Witness for C1: a 3-byte file sent from a connected state and received on
a connected peer. -/
theorem c1_witness :
    (sendFile c1SendState c1File 1 [1]).2 =
      [Frame.fileStart "notes.txt" 3, Frame.file [104, 105, 10] "notes.txt" 3]
    ∧ (connDataEvent (connDataEvent c1RecvState (Frame.fileStart "notes.txt" 3) 2 [2])
          (Frame.file [104, 105, 10] "notes.txt" 3) 3 [3]).messages =
        c1RecvState.messages ++
          [{ id := mkId 2 [2], sender := .system, type := .system,
             content := "A 正在发送文件: notes.txt", timestamp := 2 },
           { id := mkId 3 [3], sender := .remote, type := .file,
             content := "文件已接收", timestamp := 3, fileName := some "notes.txt",
             fileSize := some 3, fileData := some [104, 105, 10] }] := by
  have h := c1_file_roundtrip c1SendState "B" c1File 1 [1] rfl rfl
  exact ⟨h.1, h.2 c1RecvState "A" 2 3 [2] [3] rfl⟩

/-- C2 (counterexample): in a reachable connected state, a further
`connectToPeer` call is not a no-op — the source function has no check of the
current status, so it moves the status back to `connecting` and starts a new
attempt; only the UI button guard prevents this. -/
theorem c2_counterexample :
    c2State.status = ConnStatus.connected
    ∧ (connectToPeer c2State).status = ConnStatus.connecting
    ∧ connectToPeer c2State ≠ c2State := by
  decide

/-- C2 (amended): `connectToPeer` ignores a call only when the peer handle is
absent or the trimmed target id is empty; otherwise — regardless of the
current status, including `connecting` and `connected` — it sets the status to
`connecting` and installs a fresh connection handle for the trimmed target,
leaving the message log unchanged. -/
theorem c2_connect_guard (s : AppState) :
    (s.peerOpen = false ∨ jsTrim s.targetId = "" → connectToPeer s = s)
    ∧ (s.peerOpen = true → jsTrim s.targetId ≠ "" →
        (connectToPeer s).status = ConnStatus.connecting
        ∧ (connectToPeer s).connection = some (jsTrim s.targetId)
        ∧ (connectToPeer s).messages = s.messages) := by
  refine ⟨fun hc => ?_, fun h1 h2 => ?_⟩
  · simp [connectToPeer, hc]
  · have hc : ¬ (s.peerOpen = false ∨ jsTrim s.targetId = "") := by
      simp [h1, h2]
    simp [connectToPeer, hc]

/-- Witness for C2 (amended) at the connected demo state. -/
theorem c2_witness :
    (connectToPeer c2State).status = ConnStatus.connecting
    ∧ (connectToPeer c2State).connection = some (jsTrim c2State.targetId)
    ∧ (connectToPeer c2State).messages = c2State.messages := by
  have h := (c2_connect_guard c2State).2 (by decide) (by decide)
  exact h

/-- C3 (code bug): while an incoming call is still unanswered
(`callState = incoming`), the remote side cancelling (the call's `close`
event) has no local effect at all — the close/error handlers are registered
only by `setupMediaCall`, which runs only from `startCall` and `answerCall` —
so the Call stays `incoming` instead of transitioning to `idle` with cleanup
and a notice, contradicting the specified
`incoming --(remote cancels)--> idle` transition. -/
theorem c3_incoming_remote_close_ignored :
    c3State.callState = CallState.incoming
    ∧ step c3State (Event.callClosed 2 [2]) = c3State
    ∧ (step c3State (Event.callClosed 2 [2])).callState ≠ CallState.idle := by
  decide

/-- C5 (counterexample): `startCall`/`answerCall` overwrite
`localStreamRef.current` without stopping the previous stream, so after
answering a second incoming call during an active call (nothing guards
`peer.on('call')` or `answerCall` against an existing call), `hangUp` from
`active` stops only the second stream: the first acquisition's audio track is
still live (not stopped) afterwards — the device is not fully released,
refuting "always results in zero live (non-stopped) local media tracks". -/
theorem c5_counterexample :
    c5PreHangup.callState = CallState.active
    ∧ (hangUp c5PreHangup 5 [5]).callState = CallState.idle
    ∧ (hangUp c5PreHangup 5 [5]).leakedTracks.map Track.stopped = [false]
    ∧ (hangUp c5PreHangup 5 [5]).leakedTracks.map Track.kind = [TrackKind.audio] := by
  decide

/-- C5 (amended): invoking `hangUp` in a reachable state whose Call is
`calling` or `active` always yields: call state `idle`, every track of the
currently attached stream stopped, the local stream ref cleared, all three
media element attachments detached, and the mute and camera-off flags reset.
Tracks of an earlier acquisition that was overwritten by a later
`getUserMedia` without an intervening stop are untouched by `hangUp` and
remain live — the source keeps no reference through which they could be
stopped. -/
theorem c5_hangup_cleanup (s : AppState) (hr : Reachable s)
    (hcs : s.callState = CallState.calling ∨ s.callState = CallState.active)
    (ts : Nat) (rnd : List Nat) :
    (hangUp s ts rnd).callState = CallState.idle
    ∧ (∀ t ∈ (hangUp s ts rnd).deviceTracks, t.stopped = true)
    ∧ (hangUp s ts rnd).localStreamRef = false
    ∧ (hangUp s ts rnd).localVideoSrc = false
    ∧ (hangUp s ts rnd).remoteVideoSrc = false
    ∧ (hangUp s ts rnd).remoteAudioSrc = false
    ∧ (hangUp s ts rnd).isMuted = false
    ∧ (hangUp s ts rnd).isCamOff = false
    ∧ (hangUp s ts rnd).leakedTracks = s.leakedTracks := by
  obtain ⟨h1, h2, h3⟩ := reachable_inv hr
  by_cases hs : s.localStreamRef = true
  · unfold hangUp handleCallEnded stopLocalStream
    rw [if_pos hs]
    refine ⟨rfl, ?_, rfl, rfl, rfl, rfl, rfl, rfl, rfl⟩
    intro t ht
    obtain ⟨t0, _, rfl⟩ := List.mem_map.mp ht
    rfl
  · have hs2 : s.localStreamRef = false := by simpa using hs
    unfold hangUp handleCallEnded stopLocalStream
    rw [if_neg hs]
    exact ⟨rfl, fun t ht => h3 hs2 t ht, hs2, rfl, rfl, rfl, rfl, rfl, rfl⟩

theorem decAux_sound : ∀ (fuel n : Nat), n ≤ fuel → ofDigitsLE (decAux fuel n) = n := by
  intro fuel
  induction fuel with
  | zero =>
      intro n hn
      have hn0 : n = 0 := Nat.le_zero.mp hn
      subst hn0
      rfl
  | succ f ih =>
      intro n hn
      cases n with
      | zero => rfl
      | succ m =>
          have hdiv : (m + 1) / 10 ≤ f := by
            have := Nat.div_lt_self (Nat.succ_pos m) (by norm_num : 1 < 10)
            omega
          simp only [decAux, ofDigitsLE, ih _ hdiv]
          omega

theorem decAux_lt : ∀ (fuel n : Nat), ∀ d ∈ decAux fuel n, d < 10 := by
  intro fuel
  induction fuel with
  | zero => intro n d hd; simp [decAux] at hd
  | succ f ih =>
      intro n d hd
      cases n with
      | zero => simp [decAux] at hd
      | succ m =>
          simp only [decAux, List.mem_cons] at hd
          rcases hd with h | h
          · subst h; exact Nat.mod_lt _ (by norm_num)
          · exact ih _ d h

theorem decDigitsRev_sound (n : Nat) : ofDigitsLE (decDigitsRev n) = n :=
  decAux_sound n n (Nat.le_refl n)

theorem decDigitsRev_inj {m n : Nat} (h : decDigitsRev m = decDigitsRev n) : m = n := by
  have hm := decDigitsRev_sound m
  rw [h, decDigitsRev_sound] at hm
  exact hm.symm

theorem digitChar_inj10 : ∀ a : Nat, a < 10 → ∀ b : Nat, b < 10 →
    Nat.digitChar a = Nat.digitChar b → a = b := by
  decide

theorem digitChar_ne_dot : ∀ d : Nat, d < 10 → Nat.digitChar d ≠ '.' := by
  decide

theorem map_digitChar_inj : ∀ l1 l2 : List Nat, (∀ d ∈ l1, d < 10) → (∀ d ∈ l2, d < 10) →
    l1.map Nat.digitChar = l2.map Nat.digitChar → l1 = l2 := by
  intro l1
  induction l1 with
  | nil =>
      intro l2 _ _ h
      cases l2 with
      | nil => rfl
      | cons b bt => simp at h
  | cons a at2 ih =>
      intro l2 h1 h2 h
      cases l2 with
      | nil => simp at h
      | cons b bt =>
          simp only [List.map_cons, List.cons.injEq] at h
          have ha : a < 10 := h1 a (List.mem_cons_self _ _)
          have hb : b < 10 := h2 b (List.mem_cons_self _ _)
          have hab : a = b := digitChar_inj10 a ha b hb h.1
          subst hab
          rw [ih bt (fun d hd => h1 d (List.mem_cons_of_mem _ hd))
            (fun d hd => h2 d (List.mem_cons_of_mem _ hd)) h.2]

theorem decRepr_ne_dot (n : Nat) : ∀ c ∈ decRepr n, c ≠ '.' := by
  intro c hc
  unfold decRepr at hc
  split at hc
  · simp only [List.mem_singleton] at hc
    subst hc
    decide
  · obtain ⟨d, hd, rfl⟩ := List.mem_map.mp hc
    exact digitChar_ne_dot d (decAux_lt _ _ d (List.mem_reverse.mp hd))

theorem decRepr_inj : ∀ m n : Nat, decRepr m = decRepr n → m = n := by
  have singleton_case : ∀ n : Nat, n ≠ 0 →
      (['0'] : List Char) = (decDigitsRev n).reverse.map Nat.digitChar → False := by
    intro n hn h
    have h0 : (['0'] : List Char) = ([0] : List Nat).map Nat.digitChar := rfl
    rw [h0] at h
    have := map_digitChar_inj [0] (decDigitsRev n).reverse (by decide)
      (fun d hd => decAux_lt _ _ d (List.mem_reverse.mp hd)) h
    have hrev : decDigitsRev n = [0] := by
      have := congrArg List.reverse this
      simpa using this.symm
    have := decDigitsRev_sound n
    rw [hrev] at this
    simp [ofDigitsLE] at this
    exact hn this.symm
  intro m n h
  unfold decRepr at h
  by_cases hm : m = 0 <;> by_cases hn : n = 0
  · omega
  · rw [if_pos hm, if_neg hn] at h
    exact absurd h (fun hx => singleton_case n hn hx)
  · rw [if_neg hm, if_pos hn] at h
    exact absurd h.symm (fun hx => singleton_case m hm hx)
  · rw [if_neg hm, if_neg hn] at h
    have hmap := map_digitChar_inj _ _
      (fun d hd => decAux_lt _ _ d (List.mem_reverse.mp hd))
      (fun d hd => decAux_lt _ _ d (List.mem_reverse.mp hd)) h
    have hdr : decDigitsRev m = decDigitsRev n := by
      have := congrArg List.reverse hmap
      simpa using this
    exact decDigitsRev_inj hdr

theorem dot_split : ∀ A B D1 D2 : List Char, (∀ c ∈ A, c ≠ '.') → (∀ c ∈ B, c ≠ '.') →
    A ++ '.' :: D1 = B ++ '.' :: D2 → A = B ∧ D1 = D2 := by
  intro A
  induction A with
  | nil =>
      intro B D1 D2 _ hB h
      cases B with
      | nil =>
          simp only [List.nil_append, List.cons.injEq] at h
          exact ⟨rfl, h.2⟩
      | cons b Bt =>
          simp only [List.nil_append, List.cons_append, List.cons.injEq] at h
          exact absurd h.1.symm (hB b (List.mem_cons_self _ _))
  | cons a At ih =>
      intro B D1 D2 hA hB h
      cases B with
      | nil =>
          simp only [List.cons_append, List.nil_append, List.cons.injEq] at h
          exact absurd h.1 (hA a (List.mem_cons_self _ _))
      | cons b Bt =>
          simp only [List.cons_append, List.cons.injEq] at h
          obtain ⟨hab, hrest⟩ := h
          obtain ⟨hAB, hD⟩ := ih Bt D1 D2 (fun c hc => hA c (List.mem_cons_of_mem _ hc))
            (fun c hc => hB c (List.mem_cons_of_mem _ hc)) hrest
          exact ⟨by rw [hab, hAB], hD⟩

theorem no_dot_append_zero (t : Nat) : ∀ c ∈ decRepr t ++ ['0'], c ≠ '.' := by
  intro c hc
  rcases List.mem_append.mp hc with h | h
  · exact decRepr_ne_dot t c h
  · simp only [List.mem_singleton] at h
    subst h
    decide

/-- The `timestamp + random` message id of the call-enabled variant is
injective in the pair (timestamp, fractional digits of the draw). -/
theorem mkId_inj (t1 t2 : Nat) (r1 r2 : List Nat)
    (h1 : ∀ d ∈ r1, d < 10) (h2 : ∀ d ∈ r2, d < 10)
    (h : mkId t1 r1 = mkId t2 r2) : t1 = t2 ∧ r1 = r2 := by
  unfold mkId fracRepr at h
  by_cases e1 : r1 = [] <;> by_cases e2 : r2 = []
  · rw [if_pos e1, if_pos e2] at h
    exact ⟨decRepr_inj t1 t2 (List.append_cancel_right h), e1.trans e2.symm⟩
  · rw [if_pos e1, if_neg e2] at h
    exfalso
    have hdot : '.' ∈ decRepr t2 ++ '0' :: '.' :: r2.map Nat.digitChar := by
      simp
    rw [← h] at hdot
    have hdot2 : '.' ∈ decRepr t1 ++ ['0'] := hdot
    exact no_dot_append_zero t1 '.' hdot2 rfl
  · rw [if_neg e1, if_pos e2] at h
    exfalso
    have hdot : '.' ∈ decRepr t1 ++ '0' :: '.' :: r1.map Nat.digitChar := by
      simp
    rw [h] at hdot
    have hdot2 : '.' ∈ decRepr t2 ++ ['0'] := hdot
    exact no_dot_append_zero t2 '.' hdot2 rfl
  · rw [if_neg e1, if_neg e2] at h
    have h' : (decRepr t1 ++ ['0']) ++ '.' :: r1.map Nat.digitChar
        = (decRepr t2 ++ ['0']) ++ '.' :: r2.map Nat.digitChar := by
      simpa [List.append_assoc] using h
    obtain ⟨hA, hD⟩ := dot_split _ _ _ _ (no_dot_append_zero t1) (no_dot_append_zero t2) h'
    exact ⟨decRepr_inj t1 t2 (List.append_cancel_right hA), map_digitChar_inj _ _ h1 h2 hD⟩

/-- Every event either leaves the message log unchanged or appends exactly
one message, whose id is built from the event's `Date.now()` and
`Math.random()` values — through `mkId` everywhere except the `peer.on('error')`
handler, which uses the bare timestamp. -/
theorem step_messages (s : AppState) (e : Event) :
    (step s e).messages = s.messages
    ∨ ∃ m : Message, (step s e).messages = s.messages ++ [m]
        ∧ (m.id = mkId e.stamp.1 e.stamp.2
           ∨ (e.isPeerErr = true ∧ m.id = decRepr e.stamp.1)) := by
  cases e with
  | setTarget t => exact Or.inl rfl
  | setInput t => exact Or.inl rfl
  | muteClick =>
      by_cases hs : s.localStreamRef = true
      · simp only [step, toggleMute, if_pos hs]; exact Or.inl trivial
      · simp only [step, toggleMute, if_neg hs]; exact Or.inl trivial
  | cameraClick =>
      by_cases hs : s.localStreamRef = true
      · simp only [step, toggleCamera, if_pos hs]; exact Or.inl trivial
      · simp only [step, toggleCamera, if_neg hs]; exact Or.inl trivial
  | connectClick =>
      by_cases hc : s.peerOpen = false ∨ jsTrim s.targetId = ""
      · simp only [step, connectToPeer, if_pos hc]; exact Or.inl trivial
      · simp only [step, connectToPeer, if_neg hc]; exact Or.inl trivial
  | connOpen ts rnd =>
      cases hc : s.connection with
      | none => simp only [step, connOpenEvent, hc]; exact Or.inl trivial
      | some p =>
          simp only [step, connOpenEvent, hc, addSystemMessage]
          exact Or.inr ⟨_, rfl, Or.inl rfl⟩
  | connData f ts rnd =>
      cases hc : s.connection with
      | none => simp only [step, connDataEvent, hc]; exact Or.inl trivial
      | some p =>
          cases f with
          | text c =>
              simp only [step, connDataEvent, hc]
              exact Or.inr ⟨_, rfl, Or.inl rfl⟩
          | fileStart n sz =>
              simp only [step, connDataEvent, hc, addSystemMessage]
              exact Or.inr ⟨_, rfl, Or.inl rfl⟩
          | file d n sz =>
              simp only [step, connDataEvent, hc]
              exact Or.inr ⟨_, rfl, Or.inl rfl⟩
          | other tag =>
              simp only [step, connDataEvent, hc]
              exact Or.inl trivial
  | connClose ts rnd =>
      cases hc : s.connection with
      | none => simp only [step, connCloseEvent, hc]; exact Or.inl trivial
      | some p =>
          simp only [step, connCloseEvent, hc, addSystemMessage]
          exact Or.inr ⟨_, rfl, Or.inl rfl⟩
  | connError e ts rnd =>
      cases hc : s.connection with
      | none => simp only [step, connErrorEvent, hc]; exact Or.inl trivial
      | some p =>
          simp only [step, connErrorEvent, hc, addSystemMessage]
          exact Or.inr ⟨_, rfl, Or.inl rfl⟩
  | peerErr e ts =>
      simp only [step, peerErrorEvent]
      exact Or.inr ⟨_, rfl, Or.inr ⟨rfl, rfl⟩⟩
  | sendClick ts rnd =>
      cases hc : s.connection with
      | none => simp only [step, sendMessage, hc]; exact Or.inl trivial
      | some p =>
          by_cases ht : jsTrim s.inputText = ""
          · simp only [step, sendMessage, hc, if_pos ht]; exact Or.inl trivial
          · simp only [step, sendMessage, hc, if_neg ht]
            exact Or.inr ⟨_, rfl, Or.inl rfl⟩
  | sendFileClick f ts rnd =>
      cases hc : s.connection with
      | none => simp only [step, sendFile, hc]; exact Or.inl trivial
      | some p =>
          simp only [step, sendFile, hc]
          exact Or.inr ⟨_, rfl, Or.inl rfl⟩
  | incoming c m ts rnd =>
      simp only [step, incomingCallEvent, addSystemMessage]
      exact Or.inr ⟨_, rfl, Or.inl rfl⟩
  | startBegin m =>
      by_cases hc : s.peerOpen = false ∨ jsTrim s.targetId = ""
      · simp only [step, startCallBegin, if_pos hc]; exact Or.inl trivial
      · simp only [step, startCallBegin, if_neg hc]; exact Or.inl trivial
  | startOk tr ts rnd =>
      cases hp : s.pendingStartMode with
      | none => simp only [step, startCallMediaOk, hp]; exact Or.inl trivial
      | some mode =>
          simp only [step, startCallMediaOk, hp, attachLocalVideo, addSystemMessage,
            apply_ite AppState.messages, ite_self]
          exact Or.inr ⟨_, rfl, Or.inl rfl⟩
  | startErr e ts rnd =>
      cases hp : s.pendingStartMode with
      | none => simp only [step, startCallMediaErr, hp]; exact Or.inl trivial
      | some mode =>
          simp only [step, startCallMediaErr, hp, addSystemMessage]
          exact Or.inr ⟨_, rfl, Or.inl rfl⟩
  | answerOk tr =>
      cases hmc : s.mediaCall with
      | none => simp only [step, answerMediaOk, hmc]; exact Or.inl trivial
      | some mc =>
          simp only [step, answerMediaOk, hmc, attachLocalVideo,
            apply_ite AppState.messages, ite_self]
          exact Or.inl trivial
  | answerErr e ts rnd =>
      cases hmc : s.mediaCall with
      | none => simp only [step, answerMediaErr, hmc]; exact Or.inl trivial
      | some mc =>
          simp only [step, answerMediaErr, hmc, addSystemMessage]
          exact Or.inr ⟨_, rfl, Or.inl rfl⟩
  | streamArrives ts rnd =>
      cases hmc : s.mediaCall with
      | none => simp only [step, streamEvent, hmc]; exact Or.inl trivial
      | some mc =>
          by_cases hw : mc.wired = true
          · simp only [step, streamEvent, hmc, if_pos hw, attachRemoteVideo,
              attachRemoteAudio, addSystemMessage, apply_ite AppState.messages, ite_self]
            exact Or.inr ⟨_, rfl, Or.inl rfl⟩
          · simp only [step, streamEvent, hmc, if_neg hw]; exact Or.inl trivial
  | callClosed ts rnd =>
      cases hmc : s.mediaCall with
      | none => simp only [step, callCloseEvent, hmc]; exact Or.inl trivial
      | some mc =>
          by_cases hw : mc.wired = true
          · simp only [step, callCloseEvent, hmc, if_pos hw, handleCallEnded,
              stopLocalStream, addSystemMessage, apply_ite AppState.messages, ite_self]
            exact Or.inr ⟨_, rfl, Or.inl rfl⟩
          · simp only [step, callCloseEvent, hmc, if_neg hw]; exact Or.inl trivial
  | callErrored e ts rnd =>
      cases hmc : s.mediaCall with
      | none => simp only [step, callErrorEvent, hmc]; exact Or.inl trivial
      | some mc =>
          by_cases hw : mc.wired = true
          · simp only [step, callErrorEvent, hmc, if_pos hw, handleCallEnded,
              stopLocalStream, addSystemMessage, apply_ite AppState.messages, ite_self]
            exact Or.inr ⟨_, rfl, Or.inl rfl⟩
          · simp only [step, callErrorEvent, hmc, if_neg hw]; exact Or.inl trivial
  | rejectClick ts rnd =>
      simp only [step, rejectCall, addSystemMessage]
      exact Or.inr ⟨_, rfl, Or.inl rfl⟩
  | hangUpClick ts rnd =>
      simp only [step, hangUp, handleCallEnded, stopLocalStream, addSystemMessage,
        apply_ite AppState.messages, ite_self]
      exact Or.inr ⟨_, rfl, Or.inl rfl⟩

/-- Replaying a trace of non-`peer-error` events with pairwise distinct
`(Date.now(), Math.random())` stamps keeps the log's ids pairwise distinct. -/
theorem run_nodup (es : List Event) : ∀ s : AppState,
    (∀ e ∈ es, e.isPeerErr = false) →
    (∀ e ∈ es, ∀ d ∈ e.stamp.2, d < 10) →
    es.Pairwise (fun a b => a.stamp ≠ b.stamp) →
    (s.messages.map Message.id).Nodup →
    (∀ m ∈ s.messages, ∀ e2 ∈ es, m.id ≠ mkId e2.stamp.1 e2.stamp.2) →
    ((run s es).messages.map Message.id).Nodup := by
  induction es with
  | nil => intro s _ _ _ hnd _; exact hnd
  | cons e es ih =>
      intro s hpe hdig hpw hnd hfresh
      rw [List.pairwise_cons] at hpw
      obtain ⟨hpwh, hpwt⟩ := hpw
      have hpe0 : e.isPeerErr = false := hpe e (List.mem_cons_self _ _)
      have hpet : ∀ e2 ∈ es, e2.isPeerErr = false :=
        fun e2 he2 => hpe e2 (List.mem_cons_of_mem _ he2)
      have hdigt : ∀ e2 ∈ es, ∀ d ∈ e2.stamp.2, d < 10 :=
        fun e2 he2 => hdig e2 (List.mem_cons_of_mem _ he2)
      show ((run (step s e) es).messages.map Message.id).Nodup
      rcases step_messages s e with hsame | ⟨m, hm, hid⟩
      · refine ih (step s e) hpet hdigt hpwt ?_ ?_
        · rw [hsame]; exact hnd
        · intro m hm2 e2 he2
          rw [hsame] at hm2
          exact hfresh m hm2 e2 (List.mem_cons_of_mem _ he2)
      · have hid2 : m.id = mkId e.stamp.1 e.stamp.2 := by
          rcases hid with h | ⟨hp, _⟩
          · exact h
          · rw [hpe0] at hp; exact Bool.noConfusion hp
        refine ih (step s e) hpet hdigt hpwt ?_ ?_
        · rw [hm, List.map_append]
          rw [List.nodup_append]
          refine ⟨hnd, List.nodup_singleton _, ?_⟩
          intro a ha hb
          simp only [List.map_cons, List.map_nil, List.mem_singleton] at hb
          subst hb
          obtain ⟨m0, hm0, hma⟩ := List.mem_map.mp ha
          exact hfresh m0 hm0 e (List.mem_cons_self _ _) (by rw [hma, hid2])
        · intro m0 hm0 e2 he2
          rw [hm] at hm0
          rcases List.mem_append.mp hm0 with h0 | h0
          · exact hfresh m0 h0 e2 (List.mem_cons_of_mem _ he2)
          · have hm0m : m0 = m := by simpa using h0
            subst hm0m
            rw [hid2]
            intro hcontra
            have hij := mkId_inj _ _ _ _ (hdig e (List.mem_cons_self _ _))
              (hdigt e2 he2) hcontra
            exact hpwh e2 he2 (Prod.ext hij.1 hij.2)

/-- Every base-36 digit below 36 renders, after upper-casing, as an
upper-case alphanumeric character. -/
theorem up36_alnum : ∀ d : Nat, d < 36 → isUpperAlnum (jsUpChar (base36Char d)) = true := by
  decide

/-- Unfolding of `generatePeerId` on a non-empty digit list. -/
theorem generatePeerId_cons (d : Nat) (ds : List Nat) :
    generatePeerId (d :: ds) = (((d :: ds).map base36Char).take 6).map jsUpChar :=
  rfl

/-- C7 (counterexample): `Math.random()` can return `0.5`, whose base-36
rendering is "0.i"; the generated identifier is then the single character "I",
not 6 characters, refuting "exactly 6 characters for every value the random
source may produce". -/
theorem c7_counterexample :
    (∀ d ∈ ([18] : List Nat), d < 36) ∧ generatePeerId [18] = ['I']
    ∧ (generatePeerId [18]).length ≠ 6 := by
  decide

/-- C7 (amended): for every random draw (given as its base-36 fractional
digit list), the generated Session Identity consists only of upper-case
alphanumeric characters and has length `min 6 k` where `k` is the number of
fractional base-36 digits of the draw — so exactly 6 characters whenever the
rendering has at least 6 fractional digits (the typical case), and fewer when
the expansion terminates early (for example 0.5 gives "I", 0 gives ""). -/
theorem c7_peer_id_shape (frac : List Nat) (hd : ∀ d ∈ frac, d < 36) :
    (generatePeerId frac).length = min 6 frac.length
    ∧ ∀ c ∈ generatePeerId frac, isUpperAlnum c = true := by
  cases frac with
  | nil =>
      refine ⟨rfl, ?_⟩
      intro c hc
      simp [generatePeerId, jsToString36, jsSubstring] at hc
  | cons d ds =>
      rw [generatePeerId_cons]
      constructor
      · simp
        omega
      · intro c hc
        obtain ⟨c0, hc0, rfl⟩ := List.mem_map.mp hc
        have hc1 := List.mem_of_mem_take hc0
        obtain ⟨d0, hd0, rfl⟩ := List.mem_map.mp hc1
        exact up36_alnum d0 (hd d0 hd0)

/-- Witness for C7 (amended) at a 7-digit draw: length 6, all characters
upper-case alphanumeric. -/
theorem c7_witness :
    (generatePeerId [1, 18, 35, 0, 9, 25, 7]).length = min 6 7
    ∧ ∀ c ∈ generatePeerId [1, 18, 35, 0, 9, 25, 7], isUpperAlnum c = true :=
  c7_peer_id_shape [1, 18, 35, 0, 9, 25, 7] (by decide)

/-- A double toggle restores every track (audio tracks by the sync
hypothesis, others untouched). -/
theorem toggle_pair_tracks (m : Bool) :
    ∀ l : List Track, (∀ t ∈ l, t.kind = TrackKind.audio → t.enabled = !m) →
      ((l.map (fun t => if t.kind = .audio then { t with enabled := m } else t)).map
        (fun t => if t.kind = .audio then { t with enabled := !m } else t)) = l := by
  intro l hl
  induction l with
  | nil => rfl
  | cons t ts ih =>
      obtain ⟨k, en, stp⟩ := t
      have hh := hl ⟨k, en, stp⟩ (List.mem_cons_self _ _)
      have hrest : ∀ t ∈ ts, t.kind = TrackKind.audio → t.enabled = !m :=
        fun t ht => hl t (List.mem_cons_of_mem _ ht)
      by_cases hk : k = TrackKind.audio
      · subst hk
        have hen : en = !m := hh rfl
        subst hen
        simp [ih hrest]
      · simp [hk, ih hrest]

/-- C9 (counterexample): a reachable `active` state with the local stream
attached in which the audio track is enabled although `isMuted` is `true`
(reached by muting during a call and then starting a second call from within
it). A double `toggleMute` there leaves the track's `enabled` flag at the
negation of the original mute flag — `false` instead of the original `true` —
so the pair is not the identity; only the mute flag itself returns. -/
theorem c9_counterexample :
    c9State.callState = CallState.active
    ∧ c9State.localStreamRef = true
    ∧ c9State.isMuted = true
    ∧ c9State.deviceTracks.map Track.enabled = [true]
    ∧ (toggleMute (toggleMute c9State)).deviceTracks.map Track.enabled = [false]
    ∧ (toggleMute (toggleMute c9State)).isMuted = true := by
  decide

/-- C9 (amended): during an active call with a local media stream attached,
a double `toggleMute` is the identity on the whole state — in particular on
every audio track's `enabled` flag and on the mute flag — provided each local
audio track's `enabled` flag is the negation of the mute flag beforehand (the
relation every ordinary call maintains); without that proviso only the mute
flag itself returns to its original value. -/
theorem c9_toggle_mute_pair (s : AppState)
    (hact : s.callState = CallState.active) (hs : s.localStreamRef = true)
    (hsync : ∀ t ∈ s.deviceTracks, t.kind = TrackKind.audio → t.enabled = !s.isMuted) :
    toggleMute (toggleMute s) = s := by
  obtain ⟨pid, po, tid, conn, st, msgs, inp, cs, cm, im, ico, mc, dt, lk, lsr, lvs, rvs, ras, psm⟩ := s
  simp only at hs hsync
  subst hs
  simp only [toggleMute, if_true]
  simp only [AppState.mk.injEq, and_true, true_and, Bool.not_not]
  exact toggle_pair_tracks im dt hsync

/-- The in-sync `active` state of `c9SyncTrace` is reachable. -/
theorem c9SyncState_reachable : Reachable c9SyncState :=
  (((Reachable.init.next (Event.setTarget "AB")).next (Event.startBegin .audio)).next
    (Event.startOk [freshAudioTrack] 1 [1])).next (Event.streamArrives 2 [2])

/-- Witness for C9 (amended): a double toggle on an ordinary reachable active
audio call is the identity. -/
theorem c9_witness : toggleMute (toggleMute c9SyncState) = c9SyncState :=
  c9_toggle_mute_pair c9SyncState (by decide) (by decide) (by decide)

/-- Only the remote-stream handler can take the call state to `active`: any
step entering `active` either started there or is the `stream` event. -/
theorem enters_active (s : AppState) (e : Event)
    (h : (step s e).callState = CallState.active) :
    s.callState = CallState.active ∨ e.isStream = true := by
  cases e with
  | streamArrives ts rnd => exact Or.inr rfl
  | setTarget t => exact Or.inl h
  | setInput t => exact Or.inl h
  | peerErr e ts => exact Or.inl h
  | connectClick =>
      simp only [step, connectToPeer, apply_ite AppState.callState, ite_self] at h
      exact Or.inl h
  | connOpen ts rnd =>
      cases hc : s.connection with
      | none => simp only [step, connOpenEvent, hc] at h; exact Or.inl h
      | some p =>
          simp only [step, connOpenEvent, hc, addSystemMessage] at h
          exact Or.inl h
  | connData f ts rnd =>
      cases hc : s.connection with
      | none => simp only [step, connDataEvent, hc] at h; exact Or.inl h
      | some p =>
          cases f <;> simp only [step, connDataEvent, hc, addSystemMessage] at h <;>
            exact Or.inl h
  | connClose ts rnd =>
      cases hc : s.connection with
      | none => simp only [step, connCloseEvent, hc] at h; exact Or.inl h
      | some p =>
          simp only [step, connCloseEvent, hc, addSystemMessage] at h
          exact Or.inl h
  | connError e ts rnd =>
      cases hc : s.connection with
      | none => simp only [step, connErrorEvent, hc] at h; exact Or.inl h
      | some p =>
          simp only [step, connErrorEvent, hc, addSystemMessage] at h
          exact Or.inl h
  | sendClick ts rnd =>
      cases hc : s.connection with
      | none => simp only [step, sendMessage, hc] at h; exact Or.inl h
      | some p =>
          by_cases ht : jsTrim s.inputText = ""
          · simp only [step, sendMessage, hc, if_pos ht] at h; exact Or.inl h
          · simp only [step, sendMessage, hc, if_neg ht] at h; exact Or.inl h
  | sendFileClick f ts rnd =>
      cases hc : s.connection with
      | none => simp only [step, sendFile, hc] at h; exact Or.inl h
      | some p => simp only [step, sendFile, hc] at h; exact Or.inl h
  | incoming c m ts rnd =>
      simp only [step, incomingCallEvent, addSystemMessage] at h
      exact absurd h (fun hx => CallState.noConfusion hx)
  | startBegin m =>
      by_cases hc : s.peerOpen = false ∨ jsTrim s.targetId = ""
      · simp only [step, startCallBegin, if_pos hc] at h
        exact Or.inl h
      · simp only [step, startCallBegin, if_neg hc] at h
        exact absurd h (fun hx => CallState.noConfusion hx)
  | startOk tr ts rnd =>
      cases hp : s.pendingStartMode with
      | none => simp only [step, startCallMediaOk, hp] at h; exact Or.inl h
      | some mode =>
          simp only [step, startCallMediaOk, hp, attachLocalVideo, addSystemMessage,
            apply_ite AppState.callState, ite_self] at h
          exact Or.inl h
  | startErr e ts rnd =>
      cases hp : s.pendingStartMode with
      | none => simp only [step, startCallMediaErr, hp] at h; exact Or.inl h
      | some mode =>
          simp only [step, startCallMediaErr, hp, addSystemMessage] at h
          exact absurd h (fun hx => CallState.noConfusion hx)
  | answerOk tr =>
      cases hmc : s.mediaCall with
      | none => simp only [step, answerMediaOk, hmc] at h; exact Or.inl h
      | some mc =>
          simp only [step, answerMediaOk, hmc, attachLocalVideo,
            apply_ite AppState.callState, ite_self] at h
          exact Or.inl h
  | answerErr e ts rnd =>
      cases hmc : s.mediaCall with
      | none => simp only [step, answerMediaErr, hmc] at h; exact Or.inl h
      | some mc =>
          simp only [step, answerMediaErr, hmc, addSystemMessage] at h
          exact absurd h (fun hx => CallState.noConfusion hx)
  | callClosed ts rnd =>
      cases hmc : s.mediaCall with
      | none => simp only [step, callCloseEvent, hmc] at h; exact Or.inl h
      | some mc =>
          by_cases hw : mc.wired = true
          · simp only [step, callCloseEvent, hmc, if_pos hw, handleCallEnded,
              stopLocalStream, addSystemMessage, apply_ite AppState.callState, ite_self] at h
            exact absurd h (fun hx => CallState.noConfusion hx)
          · simp only [step, callCloseEvent, hmc, if_neg hw] at h
            exact Or.inl h
  | callErrored e ts rnd =>
      cases hmc : s.mediaCall with
      | none => simp only [step, callErrorEvent, hmc] at h; exact Or.inl h
      | some mc =>
          by_cases hw : mc.wired = true
          · simp only [step, callErrorEvent, hmc, if_pos hw, handleCallEnded,
              stopLocalStream, addSystemMessage, apply_ite AppState.callState, ite_self] at h
            exact absurd h (fun hx => CallState.noConfusion hx)
          · simp only [step, callErrorEvent, hmc, if_neg hw] at h
            exact Or.inl h
  | rejectClick ts rnd =>
      simp only [step, rejectCall, addSystemMessage] at h
      exact absurd h (fun hx => CallState.noConfusion hx)
  | hangUpClick ts rnd =>
      simp only [step, hangUp, handleCallEnded, stopLocalStream, addSystemMessage,
        apply_ite AppState.callState, ite_self] at h
      exact absurd h (fun hx => CallState.noConfusion hx)
  | muteClick =>
      simp only [step, toggleMute, apply_ite AppState.callState, ite_self] at h
      exact Or.inl h
  | cameraClick =>
      simp only [step, toggleCamera, apply_ite AppState.callState, ite_self] at h
      exact Or.inl h

/-- C4 (counterexample): on the answering side of a video call the remote
stream arrives while the state is still `incoming`; the video elements are
mounted only during `calling`/`active`, so `attachStream` silently skips the
attachment and the Call still becomes `active` — a reachable `active` state
with no remote stream attached anywhere, refuting "never becomes active
unless the remote media stream has been attached". -/
theorem c4_counterexample :
    c4State.callState = CallState.active
    ∧ c4State.callMode = CallMode.video
    ∧ c4State.remoteVideoSrc = false
    ∧ c4State.remoteAudioSrc = false
    ∧ c4State.localVideoSrc = false := by
  decide

/-- C4 (amended): in every reachable state, an `active` Call has the local
media stream acquired and attached to the ref, and `active` can only ever be
entered by the remote-stream event — in particular, from `idle`, `startCall`
alone reaches at most `calling`. The remote stream is moreover attached on
entry whenever the matching media element is mounted (always for audio; for
video only on the caller's side, where the panel is already rendered —
see the counterexample for the answering side). -/
theorem c4_active_needs_stream (s : AppState) (hr : Reachable s) :
    (s.callState = CallState.active → s.localStreamRef = true)
    ∧ ∀ e : Event, (step s e).callState = CallState.active →
        s.callState = CallState.active ∨ e.isStream = true :=
  ⟨(reachable_inv hr).1, fun e h => enters_active s e h⟩

/-- Witness for C4 (amended) at the reachable active audio-call state. -/
theorem c4_witness :
    c9SyncState.localStreamRef = true
    ∧ (c9SyncState.callState = CallState.active
        ∨ (Event.streamArrives 9 [9]).isStream = true) := by
  have h := c4_active_needs_stream c9SyncState c9SyncState_reachable
  exact ⟨h.1 (by decide), h.2 (Event.streamArrives 9 [9]) (by decide)⟩

/-- Witness for C5: hanging up the reachable `calling` state with one
acquired audio track. -/
theorem c5_witness :
    (hangUp c5State 7 [3]).callState = CallState.idle
    ∧ (∀ t ∈ (hangUp c5State 7 [3]).deviceTracks, t.stopped = true)
    ∧ (hangUp c5State 7 [3]).localStreamRef = false
    ∧ (hangUp c5State 7 [3]).localVideoSrc = false
    ∧ (hangUp c5State 7 [3]).remoteVideoSrc = false
    ∧ (hangUp c5State 7 [3]).remoteAudioSrc = false
    ∧ (hangUp c5State 7 [3]).isMuted = false
    ∧ (hangUp c5State 7 [3]).isCamOff = false
    ∧ (hangUp c5State 7 [3]).leakedTracks = c5State.leakedTracks :=
  c5_hangup_cleanup c5State c5State_reachable (Or.inl rfl) 7 [3]

/-- C8 (counterexample): in the base variant both text-message ids are the
bare `Date.now().toString()`, so two text frames arriving within the same
millisecond produce two log entries with the same id — the log does not have
unique ids for every sequence of operations. -/
theorem c8_counterexample : ¬ (c8Msgs.map Message.id).Nodup := by
  decide

/-- C8 (amended): in the call-enabled variant every handler builds the id
from the event's `Date.now()` and `Math.random()` values; excluding the
`peer.on('error')` handler (whose id is the bare timestamp), any event
sequence whose `(timestamp, random draw)` stamps are pairwise distinct yields
a log with pairwise distinct ids. Uniqueness is not unconditional: same-stamp
events — and, in the base variant, any two text/system messages in the same
millisecond — collide. -/
theorem c8_ids_unique (es : List Event)
    (hkind : ∀ e ∈ es, e.isPeerErr = false)
    (hdig : ∀ e ∈ es, ∀ d ∈ e.stamp.2, d < 10)
    (hstamps : es.Pairwise (fun a b => a.stamp ≠ b.stamp)) :
    ((run initState es).messages.map Message.id).Nodup :=
  run_nodup es initState hkind hdig hstamps (by simp [initState])
    (by intro m hm; simp [initState] at hm)

/-- Witness for C8 (amended): two incoming-call notices with distinct stamps
get distinct ids. -/
theorem c8_witness :
    ((run initState [Event.incoming "P" none 1 [1],
        Event.incoming "Q" none 2 [2]]).messages.map Message.id).Nodup :=
  c8_ids_unique [Event.incoming "P" none 1 [1], Event.incoming "Q" none 2 [2]]
    (by decide) (by decide) (by decide)

end XTools
